import Mathlib

/-!
Shallow embedding of the fabric8-auth token service
(`src/authorization/token/service/token_service.go`).

The token service composes four external collaborators (token manager,
privilege cache service, token repository, identity repository).  Each
collaborator call is modelled as a field of `TokenServiceEnv`: a pure
function whose `Option`/`Except` result captures the Go call's
value-or-error outcome.  The service operations `Audit`,
`ExchangeRefreshToken` and `ValidateToken` are translated statement by
statement from the Go source; outcomes record the data that the claims
inspect (the permission list passed to the token manager's generation
step, the token record persisted by the stale-reset branch, the raised
error).
-/

/-- Token identifiers, identity identifiers and privilege-cache
identifiers are UUIDs in the source.  Their internal structure is never
inspected by the token service, so they are represented as strings; the
external uuid library's `uuid.FromString` is abstracted by the
environment predicate `TokenServiceEnv.isUUID` (success means the string
is a well-formed UUID and the parsed value is the string itself). -/
abbrev UUID := String

/-- Modelled from the spec: §4.1 token status flags of package
`authorization/token` (not under `src/`).  The flags are independent
bits of the persisted integer bitmask; the concrete bit assignment is
not fixed by the spec and no claim depends on it, only on the bits being
independent. -/
def TOKEN_STATUS_DEPROVISIONED : Nat := 1

/-- Modelled from the spec: §4.1, see `TOKEN_STATUS_DEPROVISIONED`. -/
def TOKEN_STATUS_REVOKED : Nat := 2

/-- Modelled from the spec: §4.1, see `TOKEN_STATUS_DEPROVISIONED`. -/
def TOKEN_STATUS_LOGGED_OUT : Nat := 4

/-- Modelled from the spec: §4.1, see `TOKEN_STATUS_DEPROVISIONED`. -/
def TOKEN_STATUS_STALE : Nat := 8

/-- The `accountrepo.User` record, reduced to the single field the token
service reads (`identity.User.Banned`). -/
structure UserRecord where
  Banned : Bool
deriving DecidableEq, Repr

/-- The `accountrepo.Identity` record, reduced to the fields the token
service reads. -/
structure Identity where
  ID : UUID
  User : UserRecord
deriving DecidableEq, Repr

/-- The persisted `tokenrepo.Token` record (spec §3).  `Status` is the
integer bitmask of §4.1 flags. -/
structure Token where
  TokenID : UUID
  IdentityID : UUID
  Status : Nat
  TokenType : String
  ExpiryTime : Int
deriving DecidableEq, Repr

/-- Modelled from the spec: §4.1 `Valid()` holds iff no status flag is
set, i.e. the bitmask is zero (the method lives in package
`authorization/token`, not under `src/`). -/
def Token.Valid (t : Token) : Bool := t.Status == 0

/-- Modelled from the spec: §4.1 flag membership test on the bitmask
(the method lives in package `authorization/token`, not under
`src/`). -/
def Token.HasStatus (t : Token) (status : Nat) : Bool :=
  (t.Status &&& status) != 0

/-- A permission claim embedded in an RPT (`manager.Permissions`).  In
Go `ResourceSetID` is a non-nil string pointer wherever the service
dereferences it. -/
structure Permissions where
  ResourceSetID : String
  Scopes : List String
  Expiry : Int
deriving DecidableEq, Repr

/-- The claims parsed out of a token string by the token manager's
`ParseToken` (`manager.TokenClaims`), reduced to the fields the service
reads: the `jti` (`Id`) and the optional permissions array. -/
structure TokenClaims where
  Id : String
  Permissions : Option (List Permissions)
deriving DecidableEq, Repr

/-- A privilege-cache entry (`permission.PrivilegeCache`), as returned
both by the privilege cache service's `CachedPrivileges` and by the
token repository's `ListPrivileges` (spec §6).  The Go record stores
`Scopes` as a comma-separated string read back via `ScopesAsArray()`;
the round trip is modelled by storing the scope list directly. -/
structure PrivilegeCache where
  PrivilegeCacheID : UUID
  ResourceID : String
  Scopes : List String
  ExpiryTime : Int
  Stale : Bool
deriving DecidableEq, Repr

/-- The `jwt.MapClaims` of a parsed refresh/access token, reduced to the
claims `ValidateToken` and `ExchangeRefreshToken` read.  `jti` is
type-asserted to a string in Go before any of the modelled paths;
`sub` and `transient` are checked for presence, hence `Option`. -/
structure MapClaims where
  jti : String
  sub : Option String
  transient : Option String
deriving DecidableEq, Repr

/-- The coded unauthorized variants of the `errors` package used by the
token service: `UNAUTHORIZED_CODE_TOKEN_DEPROVISIONED` and
`UNAUTHORIZED_CODE_TOKEN_REVOKED` are distinct constants. -/
inductive UnauthorizedCode where
  | tokenDeprovisioned
  | tokenRevoked
deriving DecidableEq, Repr

/-- An error returned by a repository call: either the typed not-found
error or any other failure.  The token service only ever distinguishes
these two cases. -/
inductive RepoErr where
  | notFound
  | other
deriving DecidableEq, Repr

/-- Outcome of `Identities().LoadWithUser`: success, an unauthorized
error (which `ExchangeRefreshToken` propagates), or any other error
(which it tolerates, proceeding with a nil identity). -/
inductive IdentityLoadResult where
  | ok (identity : Identity)
  | errUnauthorized
  | errOther
deriving DecidableEq, Repr

/-- The error taxonomy of the token service (spec §7), as far as the
modelled operations raise errors.  `repo e` is a repository error
returned unchanged to the caller; `cacheFailure` is a privilege-cache
error returned unchanged (Audit's stale-privilege refresh propagates it
raw rather than wrapping it as internal).  Error-message payloads are
kept only where the Go code writes a literal string. -/
inductive Err where
  | badParameter (param msg : String)
  | unauthorized (msg : String)
  | unauthorizedWithCode (msg : String) (code : UnauthorizedCode)
  | internal
  | repo (e : RepoErr)
  | cacheFailure
deriving DecidableEq, Repr

/-- The collaborators of the token service, as consulted by one service
call.  Function results model value-or-error outcomes of the Go calls:
`Option` where the service only distinguishes success from failure,
`Except RepoErr` where the failure kind matters.
`cachedPrivileges identityID resourceID` is the privilege cache
service's `CachedPrivileges`; `saveToken`/`touchLastActive` return
whether the write succeeded. -/
structure TokenServiceEnv where
  maxPermissions : Int
  checkResourceExists : String → Except RepoErr Unit
  ctxTokenManager : Bool
  parseToken : String → Option TokenClaims
  parse : String → Option MapClaims
  isUUID : String → Bool
  loadToken : UUID → Except RepoErr Token
  listPrivileges : UUID → Option (List PrivilegeCache)
  cachedPrivileges : UUID → String → Option PrivilegeCache
  saveToken : Token → Bool
  loadIdentity : UUID → IdentityLoadResult
  touchLastActive : UUID → Bool

/-- Go's `strconv.ParseBool`: accepts exactly these twelve strings,
anything else is a parse error. -/
def parseBool (s : String) : Option Bool :=
  if s == "1" || s == "t" || s == "T" || s == "true" || s == "TRUE" || s == "True" then
    some true
  else if s == "0" || s == "f" || s == "F" || s == "false" || s == "FALSE" || s == "False" then
    some false
  else
    none

/-- `tokenServiceImpl.scopesEquivalent` (token_service.go:858): equal
lengths, then for each element of `value1` an inner scan of `value2`
with early exit. -/
def scopesEquivalent (value1 value2 : List String) : Bool :=
  if value1.length != value2.length then
    false
  else
    value1.all (fun val1 => value2.any (fun val2 => val1 == val2))

/-- Insert one privilege into a list that is sorted by expiry time in
descending order, keeping it sorted. -/
def insertByExpiry (p : PrivilegeCache) : List PrivilegeCache → List PrivilegeCache
  | [] => [p]
  | q :: rest =>
    if q.ExpiryTime < p.ExpiryTime then p :: q :: rest
    else q :: insertByExpiry p rest

/-- The `sort.Slice(oldTokenPrivs, ...ExpiryTime.After...)` call of the
mint paths (token_service.go:239, 431): sorts by expiry time from latest
to earliest.  Go's `sort.Slice` is an unspecified comparison sort (the
order of equal-expiry entries is arbitrary); it is modelled as a
deterministic insertion sort with the same comparator. -/
def sortPrivs : List PrivilegeCache → List PrivilegeCache
  | [] => []
  | p :: rest => insertByExpiry p (sortPrivs rest)

/-- Outcome of one `Audit` call.  `err e` is `(nil, err)`;
`noNewToken saved` is `(nil, nil)` together with the token record
persisted by the stale-reset branch (if any); `minted perms ids` means
the mint transaction reached the token manager's
`GenerateUnsignedRPTTokenForIdentity` with permission list `perms` and
the privilege-cache ids `ids` queued for persistence — everything after
that point (signing, registration) leaves `perms` untouched. -/
inductive AuditOutcome where
  | err (e : Err)
  | noNewToken (saved : Option Token)
  | minted (perms : List Permissions) (privilegeCacheIDs : List UUID)
deriving DecidableEq, Repr

/-- The privilege-migration loop of Audit's mint transaction
(token_service.go:245-285): walk the previous token's privileges (already
sorted by `sortPrivs`), break once the permission count has reached the
configured maximum, skip the resource being audited, refresh
individually-stale entries through the privilege cache (whose error is
propagated raw, line 263), and append everything else as-is. -/
def migrate (env : TokenServiceEnv) (identityID : UUID) (resourceID : String) :
    List PrivilegeCache → List Permissions → List UUID →
    Except Err (List Permissions × List UUID)
  | [], perms, tokenPrivs => .ok (perms, tokenPrivs)
  | oldPriv :: rest, perms, tokenPrivs =>
    if env.maxPermissions ≤ (perms.length : Int) then
      .ok (perms, tokenPrivs)
    else if oldPriv.ResourceID == resourceID then
      migrate env identityID resourceID rest perms tokenPrivs
    else if oldPriv.Stale then
      match env.cachedPrivileges identityID oldPriv.ResourceID with
      | none => .error .cacheFailure
      | some privilegeCache =>
        migrate env identityID resourceID rest
          (perms ++ [⟨oldPriv.ResourceID, privilegeCache.Scopes, privilegeCache.ExpiryTime⟩])
          (tokenPrivs ++ [oldPriv.PrivilegeCacheID])
    else
      migrate env identityID resourceID rest
        (perms ++ [⟨oldPriv.ResourceID, oldPriv.Scopes, oldPriv.ExpiryTime⟩])
        (tokenPrivs ++ [oldPriv.PrivilegeCacheID])

/-- Audit's mint transaction (token_service.go:202-316): seed the
permission list with the audited resource's live scopes and expiry from
the privilege cache, then — when a prior token record exists — migrate
its persisted privileges, sorted latest-expiring first, via `migrate`. -/
def mint (env : TokenServiceEnv) (identity : Identity) (resourceID : String)
    (loadedToken : Option Token) : AuditOutcome :=
  match env.cachedPrivileges identity.ID resourceID with
  | none => .err .internal
  | some privilegeCache =>
    let perms : List Permissions :=
      [⟨resourceID, privilegeCache.Scopes, privilegeCache.ExpiryTime⟩]
    let tokenPrivs : List UUID := [privilegeCache.PrivilegeCacheID]
    match loadedToken with
    | none => .minted perms tokenPrivs
    | some t =>
      match env.listPrivileges t.TokenID with
      | none => .err .internal
      | some oldTokenPrivs =>
        match migrate env identity.ID resourceID (sortPrivs oldTokenPrivs) perms tokenPrivs with
        | .error e => .err e
        | .ok (perms2, tokenPrivs2) => .minted perms2 tokenPrivs2

/-- The per-permission comparison loop of Audit's stale-reset branch
(token_service.go:154-181): for each embedded permission fetch the live
cached scopes, break with `scopesChanged` on the first scope-set
difference, break with `permissionsChanged` on the first embedded
resource missing from the persisted privileges; the result is the final
`(scopesChanged, permissionsChanged)` pair. -/
def checkPermsChanged (env : TokenServiceEnv) (identityID : UUID)
    (privileges : List PrivilegeCache) :
    List Permissions → Except Err (Bool × Bool)
  | [] => .ok (false, false)
  | tokenPermission :: rest =>
    match env.cachedPrivileges identityID tokenPermission.ResourceSetID with
    | none => .error .internal
    | some privilegeCache =>
      if !scopesEquivalent tokenPermission.Scopes privilegeCache.Scopes then
        .ok (true, false)
      else if !(privileges.any (fun priv => priv.ResourceID == tokenPermission.ResourceSetID)) then
        .ok (false, true)
      else
        checkPermsChanged env identityID privileges rest

/-- Audit's handling of a loaded, existing token record
(token_service.go:114-196 and the fall-through to the mint path):
ownership check, valid-and-embedded short-circuit, the status checks in
priority order, the stale-reset branch, and otherwise `mint`. -/
def auditLoaded (env : TokenServiceEnv) (identity : Identity) (tokenClaims : TokenClaims)
    (resourceID : String) (t : Token) (resourceExistsInToken : Bool) : AuditOutcome :=
  if t.IdentityID != identity.ID then
    .err (.unauthorized "invalid token for identity")
  else if t.Valid && resourceExistsInToken then
    .noNewToken none
  else if t.HasStatus TOKEN_STATUS_DEPROVISIONED then
    .err (.unauthorizedWithCode "token banned" .tokenDeprovisioned)
  else if t.HasStatus TOKEN_STATUS_REVOKED || t.HasStatus TOKEN_STATUS_LOGGED_OUT then
    .err (.unauthorizedWithCode "token revoked or logged out" .tokenRevoked)
  else if t.HasStatus TOKEN_STATUS_STALE && resourceExistsInToken then
    match env.listPrivileges tokenClaims.Id with
    | none => .err .internal
    | some privileges =>
      let claimPerms := tokenClaims.Permissions.getD []
      if privileges.length != claimPerms.length then
        mint env identity resourceID (some t)
      else
        match checkPermsChanged env identity.ID privileges claimPerms with
        | .error e => .err e
        | .ok (scopesChanged, permissionsChanged) =>
          if !scopesChanged && !permissionsChanged then
            let t2 : Token := { t with Status := 0 }
            if env.saveToken t2 then .noNewToken (some t2)
            else .err .internal
          else
            mint env identity resourceID (some t)
  else
    mint env identity resourceID (some t)

/-- `tokenServiceImpl.Audit` (token_service.go:63-323).  The repository
`Load` of the token record tolerates every error (the record is then
treated as absent, line 96-102), hence `Except.toOption`. -/
def Audit (env : TokenServiceEnv) (identity : Identity)
    (tokenString resourceID : String) : AuditOutcome :=
  match env.checkResourceExists resourceID with
  | .error .notFound => .err (.badParameter "resourceID" "resource does not exist")
  | .error .other => .err (.repo .other)
  | .ok _ =>
    if !env.ctxTokenManager then
      .err .internal
    else
      match env.parseToken tokenString with
      | none => .err (.badParameter "tokenString" "invalid token string could not be parsed")
      | some tokenClaims =>
        if !env.isUUID tokenClaims.Id then
          .err (.badParameter "jti" "invalid jti identifier - not a UUID")
        else
          match (env.loadToken tokenClaims.Id).toOption with
          | some t =>
            auditLoaded env identity tokenClaims resourceID t
              (match tokenClaims.Permissions with
               | some ps => ps.any (fun p => p.ResourceSetID == resourceID)
               | none => false)
          | none => mint env identity resourceID none

/-- `tokenServiceImpl.ValidateToken` (token_service.go:762-820).  The
first component is the returned error or success; the second records the
identities whose last-active timestamp the call attempted to touch.  A
missing `sub` claim would make the Go code panic on the type assertion
at line 804; it is modelled as the empty string (which `isUUID` may
reject like any other malformed id). -/
def ValidateToken (env : TokenServiceEnv) (claims : MapClaims) :
    Except Err Unit × List UUID :=
  if !env.isUUID claims.jti then
    (.error (.badParameter "token" "could not extract token ID from token"), [])
  else
    match env.loadToken claims.jti with
    | .error e => (.error (.repo e), [])
    | .ok tkn =>
      if !tkn.Valid then
        (.error (.unauthorized "invalid token"), [])
      else
        let transientFlag :=
          match claims.transient with
          | none => false
          | some s => (parseBool s).getD false
        if transientFlag then
          (.ok (), [])
        else
          let subStr := claims.sub.getD ""
          if !env.isUUID subStr then
            (.error (.badParameter "token" "could not extract identity ID from token"), [])
          else if env.touchLastActive subStr then
            (.ok (), [subStr])
          else
            (.error .internal, [subStr])

/-- Outcome of one `ExchangeRefreshToken` call.  `err e` means the call
failed with `e` before the token manager's
`GenerateUserTokenUsingRefreshToken` step, so no token pair was
generated and nothing was registered; `generated identity perms ids`
means the generation step was reached with that identity and permission
list, `ids` being the privilege-cache ids queued for the RPT branch of
the subsequent registration. -/
inductive ExchangeOutcome where
  | err (e : Err)
  | generated (identity : Option Identity) (permissions : List Permissions)
      (privilegeCacheIDs : List UUID)
deriving DecidableEq, Repr

/-- The privilege-migration loop of the refresh exchange
(token_service.go:436-472): like `migrate` but with no current-resource
exclusion, and an entry is refreshed through the cache when it is
individually stale or the whole previous token was stale; the cache
error is wrapped as internal here (line 445). -/
def migrateExchange (env : TokenServiceEnv) (identityID : UUID) (tokenStale : Bool) :
    List PrivilegeCache → List Permissions → List UUID →
    Except Err (List Permissions × List UUID)
  | [], permissions, tokenPrivs => .ok (permissions, tokenPrivs)
  | oldPriv :: rest, permissions, tokenPrivs =>
    if env.maxPermissions ≤ (permissions.length : Int) then
      .ok (permissions, tokenPrivs)
    else if tokenStale || oldPriv.Stale then
      match env.cachedPrivileges identityID oldPriv.ResourceID with
      | none => .error .internal
      | some privilegeCache =>
        migrateExchange env identityID tokenStale rest
          (permissions ++ [⟨oldPriv.ResourceID, privilegeCache.Scopes, privilegeCache.ExpiryTime⟩])
          (tokenPrivs ++ [oldPriv.PrivilegeCacheID])
    else
      migrateExchange env identityID tokenStale rest
        (permissions ++ [⟨oldPriv.ResourceID, oldPriv.Scopes, oldPriv.ExpiryTime⟩])
        (tokenPrivs ++ [oldPriv.PrivilegeCacheID])

/-- The RPT-handling phase of the refresh exchange
(token_service.go:380-473): parse the supplied RPT, resolve its token
id, load its record (absence tolerated), enforce ownership and the
deprovisioned/revoked status checks, then migrate its persisted
privileges. -/
def exchangeRPTPhase (env : TokenServiceEnv) (identity : Identity) (rptToken : String) :
    Except Err (List Permissions × List UUID) :=
  match env.parseToken rptToken with
  | none => .error (.unauthorized "invalid RPT token could not be parsed")
  | some tokenClaims =>
    if !env.isUUID tokenClaims.Id then
      .error (.unauthorized "could not extract token ID from RPT token")
    else
      match (env.loadToken tokenClaims.Id).toOption with
      | none => .ok ([], [])
      | some loadedToken =>
        if loadedToken.IdentityID != identity.ID then
          .error (.unauthorized "invalid token for identity")
        else if loadedToken.HasStatus TOKEN_STATUS_DEPROVISIONED then
          .error (.unauthorizedWithCode "token banned" .tokenDeprovisioned)
        else if loadedToken.HasStatus TOKEN_STATUS_REVOKED || loadedToken.HasStatus TOKEN_STATUS_LOGGED_OUT then
          .error (.unauthorizedWithCode "token revoked or logged out" .tokenRevoked)
        else
          match env.listPrivileges loadedToken.TokenID with
          | none => .error .internal
          | some oldTokenPrivs =>
            migrateExchange env identity.ID (loadedToken.HasStatus TOKEN_STATUS_STALE)
              (sortPrivs oldTokenPrivs) [] []

/-- `tokenServiceImpl.ExchangeRefreshToken` (token_service.go:326-509):
parse and validate the refresh token, resolve the subject identity
(tolerating a non-unauthorized load failure), reject banned users, run
the RPT phase when an RPT was supplied and an identity resolved, and
reach the token manager's generation step with the migrated permission
list.  The wrapped error messages produced from a collaborator's
dynamic `err.Error()` are modelled as fixed strings. -/
def ExchangeRefreshToken (env : TokenServiceEnv) (refreshToken rptToken : String) :
    ExchangeOutcome :=
  match env.parse refreshToken with
  | none => .err (.unauthorized "token parse failure")
  | some tkn =>
    match (ValidateToken env tkn).1 with
    | .error _ => .err (.unauthorized "token validation failure")
    | .ok _ =>
      match tkn.sub with
      | none => .err (.unauthorized "missing sub claim in the refresh token")
      | some sub =>
        if !env.isUUID sub then
          .err (.unauthorized "invalid sub claim")
        else
          match env.loadIdentity sub with
          | .errUnauthorized => .err (.unauthorized "identity load unauthorized")
          | .errOther => .generated none [] []
          | .ok identity =>
            if identity.User.Banned then
              .err (.unauthorized "unauthorized access")
            else if rptToken != "" then
              match exchangeRPTPhase env identity rptToken with
              | .error e => .err e
              | .ok (permissions, tokenPrivs) =>
                .generated (some identity) permissions tokenPrivs
            else
              .generated (some identity) [] []

/-- A benign collaborator environment used as the base of the concrete
test environments below: every lookup fails or is empty, every write
succeeds. -/
def baseEnv : TokenServiceEnv := {
  maxPermissions := 5
  checkResourceExists := fun _ => .ok ()
  ctxTokenManager := true
  parseToken := fun _ => none
  parse := fun _ => none
  isUUID := fun _ => true
  loadToken := fun _ => .error .notFound
  listPrivileges := fun _ => none
  cachedPrivileges := fun _ _ => none
  saveToken := fun _ => true
  loadIdentity := fun _ => .errOther
  touchLastActive := fun _ => true
}

/-- A non-banned test identity. -/
def identBase : Identity := ⟨"id1", ⟨false⟩⟩

/-- A banned test identity with the same id. -/
def identBanned : Identity := ⟨"id1", ⟨true⟩⟩

/-- The privilege-cache entry served for resource `res` in the test
environments. -/
def pcRes : PrivilegeCache := ⟨"pcres", "res", ["sc"], 100, false⟩

/-- Environment for the C1 counterexample: the maximum permission count
is configured as `0`, no prior token record exists, and the cache serves
resource `res`. -/
def envC1 : TokenServiceEnv := { baseEnv with
  maxPermissions := 0
  parseToken := fun _ => some ⟨"tid", none⟩
  cachedPrivileges := fun _ r => if r == "res" then some pcRes else none
}

/-- The k-th historical privilege of the C2 scenario: resource `rk`,
scopes `["s"]`, expiry `k`, not stale. -/
def privC2 (k : Nat) : PrivilegeCache :=
  ⟨"pc" ++ toString k, "r" ++ toString k, ["s"], (k : Int), false⟩

/-- Environment for the C2 scenario: a prior valid token that embeds
only resource `other` (so auditing `res` must mint), `12` historical
privileges with expiries `1..12` none of which is the requested
resource, and maximum permission count `5`. -/
def envC2 : TokenServiceEnv := { baseEnv with
  parseToken := fun _ => some ⟨"tid", some [⟨"other", ["s"], 0⟩]⟩
  loadToken := fun _ => .ok ⟨"tid", "id1", 0, "RPT", 99⟩
  listPrivileges := fun _ => some ((List.range 12).map (fun k => privC2 (k + 1)))
  cachedPrivileges := fun _ r => if r == "res" then some pcRes else none
}

/-- Environment for the C3 stale-reset witness: a stale prior token
embedding `res` with scopes `["a"]`, one matching persisted privilege,
and a live cache entry with the same scope set. -/
def envC3a : TokenServiceEnv := { baseEnv with
  parseToken := fun _ => some ⟨"tid", some [⟨"res", ["a"], 5⟩]⟩
  loadToken := fun _ => .ok ⟨"tid", "id1", 8, "RPT", 99⟩
  listPrivileges := fun _ => some [⟨"pc1", "res", ["a"], 5, false⟩]
  cachedPrivileges := fun _ r => if r == "res" then some ⟨"pcn", "res", ["a"], 7, false⟩ else none
}

/-- Environment for the C3 mint-on-difference witness: like `envC3a`
but the live cache entry for `res` carries a different scope set. -/
def envC3b : TokenServiceEnv := { baseEnv with
  parseToken := fun _ => some ⟨"tid", some [⟨"res", ["a"], 5⟩]⟩
  loadToken := fun _ => .ok ⟨"tid", "id1", 8, "RPT", 99⟩
  listPrivileges := fun _ => some [⟨"pc1", "res", ["a"], 5, false⟩]
  cachedPrivileges := fun _ r => if r == "res" then some ⟨"pcn", "res", ["b"], 7, false⟩ else none
}

/-- Environment for the C4 witness: a valid prior token that already
embeds resource `res`. -/
def envC4 : TokenServiceEnv := { baseEnv with
  parseToken := fun _ => some ⟨"tid", some [⟨"res", ["a"], 5⟩]⟩
  loadToken := fun _ => .ok ⟨"tid", "id1", 0, "RPT", 99⟩
}

/-- Environment for the C5 audit witness: the loaded token record is
owned by identity `id2`, not the caller `id1`. -/
def envC5a : TokenServiceEnv := { baseEnv with
  parseToken := fun _ => some ⟨"tid", some [⟨"res", ["a"], 5⟩]⟩
  loadToken := fun _ => .ok ⟨"tid", "id2", 0, "RPT", 99⟩
}

/-- The valid refresh-token record used by the exchange test
environments. -/
def refreshTokenRecord : Token := ⟨"rt1", "id1", 0, "REFRESH", 99⟩

/-- The refresh-token claims used by the exchange test environments:
`jti` `rt1`, subject `id1`, marked transient so that validation skips
the last-active touch. -/
def refreshClaims : MapClaims := ⟨"rt1", some "id1", some "true"⟩

/-- Builds an exchange test environment in which the refresh token
validates against `refreshTokenRecord`, the subject identity resolves
to `identBase`, and the supplied RPT's record is `rptRecord`. -/
def exchangeEnv (rptRecord : Token) : TokenServiceEnv := { baseEnv with
  parse := fun s => if s == "rt" then some refreshClaims else none
  parseToken := fun s => if s == "rpt" then some ⟨"tid", none⟩ else none
  loadToken := fun id =>
    if id == "rt1" then .ok refreshTokenRecord
    else if id == "tid" then .ok rptRecord
    else .error .notFound
  loadIdentity := fun id => if id == "id1" then .ok identBase else .errOther
}

/-- Environment for the C5 exchange witness: the RPT's record is owned
by `id2`, not the resolved identity `id1`. -/
def envC5x : TokenServiceEnv := exchangeEnv ⟨"tid", "id2", 0, "RPT", 99⟩

/-- Environment for the C6 audit witnesses: the prior token record is
deprovisioned (bit 1). -/
def envC6a : TokenServiceEnv := { baseEnv with
  parseToken := fun _ => some ⟨"tid", some [⟨"res", ["a"], 5⟩]⟩
  loadToken := fun _ => .ok ⟨"tid", "id1", 1, "RPT", 99⟩
}

/-- Environment for the C6 audit revoked witness: the prior token
record is revoked (bit 2). -/
def envC6b : TokenServiceEnv := { baseEnv with
  parseToken := fun _ => some ⟨"tid", some [⟨"res", ["a"], 5⟩]⟩
  loadToken := fun _ => .ok ⟨"tid", "id1", 2, "RPT", 99⟩
}

/-- Environment for the C6 exchange deprovisioned witness. -/
def envC6x : TokenServiceEnv := exchangeEnv ⟨"tid", "id1", 1, "RPT", 99⟩

/-- Environment for the C6 exchange logged-out witness (bit 4). -/
def envC6y : TokenServiceEnv := exchangeEnv ⟨"tid", "id1", 4, "RPT", 99⟩

/-- Environment for the C7 witness: like the exchange environments but
the subject identity resolves to the banned `identBanned`. -/
def envC7 : TokenServiceEnv := { exchangeEnv ⟨"tid", "id1", 0, "RPT", 99⟩ with
  loadIdentity := fun id => if id == "id1" then .ok identBanned else .errOther
}

/-- Environment for the C8 valid-load witness: the token record loads
but is revoked. -/
def envC8 : TokenServiceEnv := { baseEnv with
  loadToken := fun _ => .ok ⟨"tid", "id1", 2, "ACCESS", 99⟩
}

/-- Environment for the C10 witness: the token record loads and is
valid, and the last-active touch succeeds. -/
def envC10 : TokenServiceEnv := { baseEnv with
  loadToken := fun _ => .ok ⟨"tid", "id1", 0, "ACCESS", 99⟩
}

/-- Environment for the C1 amended-exchange witness: a plain refresh
exchange with no RPT supplied. -/
def envC1x : TokenServiceEnv := exchangeEnv ⟨"tid", "id1", 0, "RPT", 99⟩

theorem insertByExpiry_perm (p : PrivilegeCache) (l : List PrivilegeCache) :
    List.Perm (insertByExpiry p l) (p :: l) := by
  induction l with
  | nil => simp [insertByExpiry]
  | cons q rest ih =>
    simp only [insertByExpiry]
    split
    · exact List.Perm.refl _
    · exact (ih.cons q).trans (List.Perm.swap p q rest)

theorem sortPrivs_perm (l : List PrivilegeCache) : List.Perm (sortPrivs l) l := by
  induction l with
  | nil => simp [sortPrivs]
  | cons p rest ih =>
    exact (insertByExpiry_perm p (sortPrivs rest)).trans (ih.cons p)

theorem insertByExpiry_pairwise (p : PrivilegeCache) (l : List PrivilegeCache)
    (h : List.Pairwise (fun a b => b.ExpiryTime ≤ a.ExpiryTime) l) :
    List.Pairwise (fun a b => b.ExpiryTime ≤ a.ExpiryTime) (insertByExpiry p l) := by
  induction l with
  | nil => simp [insertByExpiry]
  | cons q rest ih =>
    rcases h with - | ⟨hq, hrest⟩
    simp only [insertByExpiry]
    split
    next hlt =>
      refine List.Pairwise.cons ?_ (List.Pairwise.cons hq hrest)
      intro x hx
      rcases List.mem_cons.mp hx with rfl | hmem
      · exact le_of_lt hlt
      · exact le_trans (hq x hmem) (le_of_lt hlt)
    next hge =>
      refine List.Pairwise.cons ?_ (ih hrest)
      intro x hx
      have hx' : x ∈ p :: rest := (insertByExpiry_perm p rest).subset hx
      rcases List.mem_cons.mp hx' with rfl | hmem
      · exact le_of_not_lt hge
      · exact hq x hmem

theorem sortPrivs_pairwise (l : List PrivilegeCache) :
    List.Pairwise (fun a b => b.ExpiryTime ≤ a.ExpiryTime) (sortPrivs l) := by
  induction l with
  | nil => simp [sortPrivs]
  | cons p rest ih => exact insertByExpiry_pairwise p (sortPrivs rest) ih

theorem scopesEquivalent_eq_true_iff (a b : List String) :
    scopesEquivalent a b = true ↔ (a.length = b.length ∧ ∀ x ∈ a, x ∈ b) := by
  simp only [scopesEquivalent]
  split
  next h =>
    simp only [bne_iff_ne, ne_eq] at h
    simp [h]
  next h =>
    simp only [bne, Bool.not_eq_true', beq_eq_false_iff_ne, ne_eq, Decidable.not_not] at h
    simp [List.all_eq_true, List.any_eq_true, h]

theorem mem_of_mem_of_nodup_length (a b : List String) (ha : a.Nodup) (hb : b.Nodup)
    (hlen : a.length = b.length) (hsub : ∀ x ∈ a, x ∈ b) : ∀ x ∈ b, x ∈ a := by
  have hsub' : a.toFinset ⊆ b.toFinset := by
    intro x hx
    exact List.mem_toFinset.mpr (hsub x (List.mem_toFinset.mp hx))
  have hca : a.toFinset.card = a.length := List.toFinset_card_of_nodup ha
  have hcb : b.toFinset.card = b.length := List.toFinset_card_of_nodup hb
  have heq : a.toFinset = b.toFinset :=
    Finset.eq_of_subset_of_card_le hsub' (by omega)
  intro x hx
  exact List.mem_toFinset.mp (heq ▸ List.mem_toFinset.mpr hx)

theorem migrate_ok_structure (env : TokenServiceEnv) (identityID : UUID) (resourceID : String) :
    ∀ (l : List PrivilegeCache) (perms : List Permissions) (privs : List UUID)
      (p2 : List Permissions) (q2 : List UUID),
      migrate env identityID resourceID l perms privs = .ok (p2, q2) →
      ∃ tail ptail, p2 = perms ++ tail ∧ q2 = privs ++ ptail ∧
        List.Sublist (tail.map Permissions.ResourceSetID) (l.map PrivilegeCache.ResourceID) ∧
        ∀ x ∈ tail, ¬ x.ResourceSetID = resourceID := by
  intro l
  induction l with
  | nil =>
    intro perms privs p2 q2 h
    simp only [migrate, Except.ok.injEq, Prod.mk.injEq] at h
    exact ⟨[], [], by simp [h.1], by simp [h.2], by simp, by simp⟩
  | cons x rest ih =>
    intro perms privs p2 q2 h
    simp only [migrate] at h
    split at h
    · simp only [Except.ok.injEq, Prod.mk.injEq] at h
      exact ⟨[], [], by simp [h.1], by simp [h.2], by simp, by simp⟩
    · split at h
      next hskip =>
        obtain ⟨tail, ptail, h1, h2, h3, h4⟩ := ih perms privs p2 q2 h
        exact ⟨tail, ptail, h1, h2, h3.cons _, h4⟩
      next hne =>
        have hne' : ¬ x.ResourceID = resourceID := by
          simpa using hne
        split at h
        · split at h
          · simp at h
          next pc hpc =>
            obtain ⟨tail, ptail, h1, h2, h3, h4⟩ := ih _ _ p2 q2 h
            refine ⟨⟨x.ResourceID, pc.Scopes, pc.ExpiryTime⟩ :: tail, x.PrivilegeCacheID :: ptail,
              ?_, ?_, ?_, ?_⟩
            · simp [h1]
            · simp [h2]
            · simpa using h3.cons₂ x.ResourceID
            · intro y hy
              rcases List.mem_cons.mp hy with rfl | hmem
              · simpa using hne'
              · exact h4 y hmem
        · obtain ⟨tail, ptail, h1, h2, h3, h4⟩ := ih _ _ p2 q2 h
          refine ⟨⟨x.ResourceID, x.Scopes, x.ExpiryTime⟩ :: tail, x.PrivilegeCacheID :: ptail,
            ?_, ?_, ?_, ?_⟩
          · simp [h1]
          · simp [h2]
          · simpa using h3.cons₂ x.ResourceID
          · intro y hy
            rcases List.mem_cons.mp hy with rfl | hmem
            · simpa using hne'
            · exact h4 y hmem

theorem migrate_ok_length (env : TokenServiceEnv) (identityID : UUID) (resourceID : String) :
    ∀ (l : List PrivilegeCache) (perms : List Permissions) (privs : List UUID)
      (p2 : List Permissions) (q2 : List UUID),
      migrate env identityID resourceID l perms privs = .ok (p2, q2) →
      p2.length =
        if env.maxPermissions ≤ (perms.length : Int) then perms.length
        else min env.maxPermissions.toNat
          (perms.length + (l.filter (fun x => !(x.ResourceID == resourceID))).length) := by
  intro l
  induction l with
  | nil =>
    intro perms privs p2 q2 h
    simp only [migrate, Except.ok.injEq, Prod.mk.injEq] at h
    rw [← h.1]
    split
    · rfl
    next hlt => simp only [List.filter_nil, List.length_nil, Nat.add_zero]; omega
  | cons x rest ih =>
    intro perms privs p2 q2 h
    simp only [migrate] at h
    split at h
    next hbreak =>
      simp only [Except.ok.injEq, Prod.mk.injEq] at h
      rw [← h.1]
      simp [hbreak]
    next hcont =>
      split at h
      next hskip =>
        have := ih perms privs p2 q2 h
        rw [this]
        have hx : (x.ResourceID == resourceID) = true := by simpa using hskip
        simp [hcont, List.filter_cons, hx]
      next hne =>
        have hx : (x.ResourceID == resourceID) = false := by
          simpa using hne
        split at h
        · split at h
          · simp at h
          next pc hpc =>
            have heq := ih _ _ p2 q2 h
            simp only [List.length_append, List.length_cons, List.length_nil] at heq
            rw [List.filter_cons]
            simp only [hx, Bool.not_false, if_true, List.length_cons]
            split at heq <;> split <;> omega
        · have heq := ih _ _ p2 q2 h
          simp only [List.length_append, List.length_cons, List.length_nil] at heq
          rw [List.filter_cons]
          simp only [hx, Bool.not_false, if_true, List.length_cons]
          split at heq <;> split <;> omega

theorem migrate_ok_of_cache (env : TokenServiceEnv) (identityID : UUID) (resourceID : String) :
    ∀ (l : List PrivilegeCache) (perms : List Permissions) (privs : List UUID),
      (∀ x ∈ l, x.Stale = true → (env.cachedPrivileges identityID x.ResourceID).isSome) →
      ∃ out, migrate env identityID resourceID l perms privs = .ok out := by
  intro l
  induction l with
  | nil => intro perms privs _; exact ⟨(perms, privs), rfl⟩
  | cons x rest ih =>
    intro perms privs hc
    simp only [migrate]
    split
    · exact ⟨(perms, privs), rfl⟩
    · split
      · exact ih perms privs (fun y hy => hc y (List.mem_cons_of_mem x hy))
      · split
        · split
          next hnone =>
            exfalso
            have := hc x (List.mem_cons_self x rest) (by assumption)
            rw [hnone] at this
            simp at this
          next pc hpc => exact ih _ _ (fun y hy => hc y (List.mem_cons_of_mem x hy))
        · exact ih _ _ (fun y hy => hc y (List.mem_cons_of_mem x hy))

theorem checkPermsChanged_ok (env : TokenServiceEnv) (identityID : UUID)
    (privileges : List PrivilegeCache) :
    ∀ (claimPerms : List Permissions),
      (∀ p ∈ claimPerms, ∃ pc, env.cachedPrivileges identityID p.ResourceSetID = some pc ∧
        scopesEquivalent p.Scopes pc.Scopes = true) →
      (∀ p ∈ claimPerms,
        privileges.any (fun priv => priv.ResourceID == p.ResourceSetID) = true) →
      checkPermsChanged env identityID privileges claimPerms = .ok (false, false) := by
  intro claimPerms
  induction claimPerms with
  | nil => intro _ _; rfl
  | cons p rest ih =>
    intro h1 h2
    obtain ⟨pc, hpc, heq⟩ := h1 p (List.mem_cons_self p rest)
    simp only [checkPermsChanged, hpc, heq, Bool.not_true, Bool.false_eq_true, if_false,
      h2 p (List.mem_cons_self p rest), if_true]
    exact ih (fun q hq => h1 q (List.mem_cons_of_mem p hq))
      (fun q hq => h2 q (List.mem_cons_of_mem p hq))

theorem auditLoaded_minted (env : TokenServiceEnv) (identity : Identity)
    (tokenClaims : TokenClaims) (resourceID : String) (t : Token)
    (resourceExistsInToken : Bool) (perms : List Permissions) (privs : List UUID)
    (h : auditLoaded env identity tokenClaims resourceID t resourceExistsInToken =
      .minted perms privs) :
    mint env identity resourceID (some t) = .minted perms privs := by
  simp only [auditLoaded] at h
  split at h
  · simp at h
  · split at h
    · simp at h
    · split at h
      · simp at h
      · split at h
        · simp at h
        · split at h
          · split at h
            · simp at h
            · split at h
              · exact h
              · split at h
                · simp at h
                · split at h
                  · split at h <;> simp at h
                  · exact h
          · exact h

theorem audit_minted (env : TokenServiceEnv) (identity : Identity)
    (tokenString resourceID : String) (perms : List Permissions) (privs : List UUID)
    (h : Audit env identity tokenString resourceID = .minted perms privs) :
    ∃ loadedToken, mint env identity resourceID loadedToken = .minted perms privs := by
  simp only [Audit] at h
  split at h
  · simp at h
  · simp at h
  · split at h
    · simp at h
    · split at h
      · simp at h
      · split at h
        · simp at h
        · split at h
          next t heq => exact ⟨some t, auditLoaded_minted _ _ _ _ _ _ _ _ h⟩
          · exact ⟨none, h⟩

theorem audit_minted_of_load (env : TokenServiceEnv) (identity : Identity)
    (tokenString resourceID : String) (tokenClaims : TokenClaims) (t : Token)
    (perms : List Permissions) (privs : List UUID)
    (hparse : env.parseToken tokenString = some tokenClaims)
    (hload : env.loadToken tokenClaims.Id = .ok t)
    (h : Audit env identity tokenString resourceID = .minted perms privs) :
    mint env identity resourceID (some t) = .minted perms privs := by
  simp only [Audit, hparse, hload, Except.toOption] at h
  split at h
  · simp at h
  · simp at h
  · split at h
    · simp at h
    · split at h
      · simp at h
      · exact auditLoaded_minted _ _ _ _ _ _ _ _ h

theorem mint_minted_length (env : TokenServiceEnv) (identity : Identity)
    (resourceID : String) (loadedToken : Option Token)
    (perms : List Permissions) (privs : List UUID)
    (h : mint env identity resourceID loadedToken = .minted perms privs) :
    perms.length ≤ max 1 env.maxPermissions.toNat := by
  simp only [mint] at h
  split at h
  · simp at h
  · split at h
    · simp only [AuditOutcome.minted.injEq] at h
      rw [← h.1]
      simp
    · split at h
      · simp at h
      · split at h
        · simp at h
        next p2 q2 hmig =>
          simp only [AuditOutcome.minted.injEq] at h
          have hlen := migrate_ok_length env identity.ID resourceID _ _ _ _ _ hmig
          rw [← h.1]
          simp only [List.length_cons, List.length_nil] at hlen
          split at hlen <;> omega

theorem mint_some_migrate (env : TokenServiceEnv) (identity : Identity)
    (resourceID : String) (t : Token) (pc : PrivilegeCache)
    (olds : List PrivilegeCache) (perms : List Permissions) (privs : List UUID)
    (hpc : env.cachedPrivileges identity.ID resourceID = some pc)
    (holds : env.listPrivileges t.TokenID = some olds)
    (h : mint env identity resourceID (some t) = .minted perms privs) :
    migrate env identity.ID resourceID (sortPrivs olds)
      [⟨resourceID, pc.Scopes, pc.ExpiryTime⟩] [pc.PrivilegeCacheID] = .ok (perms, privs) := by
  simp only [mint, hpc, holds] at h
  split at h
  · simp at h
  next p2 q2 hmig =>
    simp only [AuditOutcome.minted.injEq] at h
    rw [← h.1, ← h.2]
    exact hmig

theorem migrateExchange_ok_length (env : TokenServiceEnv) (identityID : UUID)
    (tokenStale : Bool) :
    ∀ (l : List PrivilegeCache) (perms : List Permissions) (privs : List UUID)
      (p2 : List Permissions) (q2 : List UUID),
      migrateExchange env identityID tokenStale l perms privs = .ok (p2, q2) →
      p2.length ≤ max perms.length env.maxPermissions.toNat := by
  intro l
  induction l with
  | nil =>
    intro perms privs p2 q2 h
    simp only [migrateExchange, Except.ok.injEq, Prod.mk.injEq] at h
    rw [← h.1]
    exact le_max_left _ _
  | cons x rest ih =>
    intro perms privs p2 q2 h
    simp only [migrateExchange] at h
    split at h
    · simp only [Except.ok.injEq, Prod.mk.injEq] at h
      rw [← h.1]
      exact le_max_left _ _
    next hcont =>
      split at h
      · split at h
        · simp at h
        next pc hpc =>
          have := ih _ _ p2 q2 h
          simp only [List.length_append, List.length_cons, List.length_nil] at this
          omega
      · have := ih _ _ p2 q2 h
        simp only [List.length_append, List.length_cons, List.length_nil] at this
        omega

theorem exchangeRPTPhase_length (env : TokenServiceEnv) (identity : Identity)
    (rptToken : String) (perms : List Permissions) (privs : List UUID)
    (h : exchangeRPTPhase env identity rptToken = .ok (perms, privs)) :
    perms.length ≤ env.maxPermissions.toNat := by
  simp only [exchangeRPTPhase] at h
  split at h
  · simp at h
  · split at h
    · simp at h
    · split at h
      · simp only [Except.ok.injEq, Prod.mk.injEq] at h
        rw [← h.1]
        simp
      · split at h
        · simp at h
        · split at h
          · simp at h
          · split at h
            · simp at h
            · split at h
              · simp at h
              · have := migrateExchange_ok_length env identity.ID _ _ _ _ _ _ h
                simpa using this

theorem exchange_generated_length (env : TokenServiceEnv) (refreshToken rptToken : String)
    (oi : Option Identity) (perms : List Permissions) (privs : List UUID)
    (h : ExchangeRefreshToken env refreshToken rptToken = .generated oi perms privs) :
    perms.length ≤ env.maxPermissions.toNat := by
  simp only [ExchangeRefreshToken] at h
  split at h
  · simp at h
  · split at h
    · simp at h
    · split at h
      · simp at h
      · split at h
        · simp at h
        · split at h
          · simp at h
          · simp only [ExchangeOutcome.generated.injEq] at h
            rw [← h.2.1]
            simp
          next hi =>
            split at h
            · simp at h
            · split at h
              · split at h
                · simp at h
                next ps qs hphase =>
                  simp only [ExchangeOutcome.generated.injEq] at h
                  rw [← h.2.1]
                  exact exchangeRPTPhase_length env _ _ _ _ hphase
              · simp only [ExchangeOutcome.generated.injEq] at h
                rw [← h.2.1]
                simp

theorem Token.not_valid_of_hasStatus (t : Token) (s : Nat) (h : t.HasStatus s = true) :
    t.Valid = false := by
  simp only [Token.HasStatus, bne_iff_ne, ne_eq] at h
  simp only [Token.Valid, beq_eq_false_iff_ne, ne_eq]
  intro h0
  exact h (by rw [h0]; exact Nat.zero_and s)

theorem audit_eq_auditLoaded (env : TokenServiceEnv) (identity : Identity)
    (tokenString resourceID : String) (tokenClaims : TokenClaims) (t : Token)
    (hres : env.checkResourceExists resourceID = .ok ())
    (hctx : env.ctxTokenManager = true)
    (hparse : env.parseToken tokenString = some tokenClaims)
    (huuid : env.isUUID tokenClaims.Id = true)
    (hload : env.loadToken tokenClaims.Id = .ok t) :
    Audit env identity tokenString resourceID =
      auditLoaded env identity tokenClaims resourceID t
        (match tokenClaims.Permissions with
         | some ps => ps.any (fun p => p.ResourceSetID == resourceID)
         | none => false) := by
  simp [Audit, hres, hctx, hparse, huuid, hload, Except.toOption]

theorem exchange_eq_phase (env : TokenServiceEnv) (refreshToken rptToken : String)
    (tkn : MapClaims) (sub : String) (i : Identity)
    (hparse : env.parse refreshToken = some tkn)
    (hval : (ValidateToken env tkn).1 = .ok ())
    (hsub : tkn.sub = some sub)
    (husub : env.isUUID sub = true)
    (hid : env.loadIdentity sub = .ok i)
    (hban : i.User.Banned = false)
    (hrpt : ¬ rptToken = "") :
    ExchangeRefreshToken env refreshToken rptToken =
      match exchangeRPTPhase env i rptToken with
      | .error e => .err e
      | .ok (permissions, tokenPrivs) => .generated (some i) permissions tokenPrivs := by
  simp [ExchangeRefreshToken, hparse, hval, hsub, husub, hid, hban, hrpt]

/-- Claim C9 (counterexample): `scopesEquivalent` as implemented is not
symmetric — with a duplicated scope on one side, `["a","a"]` vs
`["a","b"]` compares as equivalent in one direction and inequivalent in
the other. -/
theorem claim_C9_counterexample :
    ¬ (scopesEquivalent ["a", "a"] ["a", "b"] =
       scopesEquivalent ["a", "b"] ["a", "a"]) := by
  decide

/-- Claim C9 (amended): the scope-set comparison used by Audit's
stale-reset is symmetric on duplicate-free scope lists: for every pair
of lists without repeated scopes, `scopesEquivalent a b` equals
`scopesEquivalent b a`. -/
theorem claim_C9_scopesEquivalent_symm (a b : List String)
    (ha : a.Nodup) (hb : b.Nodup) :
    scopesEquivalent a b = scopesEquivalent b a := by
  cases hab : scopesEquivalent a b <;> cases hba : scopesEquivalent b a <;> try rfl
  · exfalso
    rw [scopesEquivalent_eq_true_iff] at hba
    have habt : scopesEquivalent a b = true := by
      rw [scopesEquivalent_eq_true_iff]
      exact ⟨hba.1.symm, mem_of_mem_of_nodup_length b a hb ha hba.1 hba.2⟩
    rw [hab] at habt
    exact Bool.false_ne_true habt
  · exfalso
    rw [scopesEquivalent_eq_true_iff] at hab
    have hbat : scopesEquivalent b a = true := by
      rw [scopesEquivalent_eq_true_iff]
      exact ⟨hab.1.symm, mem_of_mem_of_nodup_length a b ha hb hab.1 hab.2⟩
    rw [hba] at hbat
    exact Bool.false_ne_true hbat

/-- Witness for the amended C9 at concrete duplicate-free lists. -/
theorem claim_C9_witness :
    scopesEquivalent ["a", "b"] ["b", "a"] = scopesEquivalent ["b", "a"] ["a", "b"] :=
  claim_C9_scopesEquivalent_symm ["a", "b"] ["b", "a"] (by decide) (by decide)

/-- Claim C8: ValidateToken propagates every token-load error unchanged
(including not-found), and rejects a loaded record whose status is not
VALID with a plain Unauthorized error; in both cases no identity's
last-active timestamp is touched. -/
theorem claim_C8_validate_errors :
    (∀ (env : TokenServiceEnv) (claims : MapClaims) (e : RepoErr),
      env.isUUID claims.jti = true →
      env.loadToken claims.jti = .error e →
      ValidateToken env claims = (.error (.repo e), [])) ∧
    (∀ (env : TokenServiceEnv) (claims : MapClaims) (t : Token),
      env.isUUID claims.jti = true →
      env.loadToken claims.jti = .ok t →
      ¬ t.Status = 0 →
      ValidateToken env claims = (.error (.unauthorized "invalid token"), [])) := by
  constructor
  · intro env claims e hu hl
    simp [ValidateToken, hu, hl]
  · intro env claims t hu hl hs
    simp [ValidateToken, hu, hl, Token.Valid, hs]

/-- Witness for C8: a not-found load error surfaces as-is, and a
revoked record is rejected as unauthorized, both with no touch. -/
theorem claim_C8_witness :
    ValidateToken baseEnv ⟨"tid", some "id1", none⟩ = (.error (.repo .notFound), []) ∧
    ValidateToken envC8 ⟨"tid", some "id1", none⟩ =
      (.error (.unauthorized "invalid token"), []) :=
  ⟨claim_C8_validate_errors.1 baseEnv ⟨"tid", some "id1", none⟩ .notFound rfl rfl,
   claim_C8_validate_errors.2 envC8 ⟨"tid", some "id1", none⟩ ⟨"tid", "id1", 2, "ACCESS", 99⟩
     rfl rfl (by decide)⟩

/-- Claim C10: when the loaded record is valid and the `transient`
claim is present but does not parse as a boolean, ValidateToken behaves
exactly as if the claim were absent — it treats the token as
non-transient and attempts the last-active touch of the subject
identity. -/
theorem claim_C10_unparsable_transient :
    ∀ (env : TokenServiceEnv) (claims : MapClaims) (t : Token) (s sub : String),
      env.isUUID claims.jti = true →
      env.loadToken claims.jti = .ok t →
      t.Status = 0 →
      claims.transient = some s →
      parseBool s = none →
      claims.sub = some sub →
      env.isUUID sub = true →
      ValidateToken env claims = ValidateToken env { claims with transient := none } ∧
      (ValidateToken env claims).2 = [sub] := by
  intro env claims t s sub hu hl hs ht hp hsub husub
  constructor
  · simp [ValidateToken, hu, hl, Token.Valid, hs, ht, hp]
  · cases hc : env.touchLastActive sub <;>
      simp [ValidateToken, hu, hl, Token.Valid, hs, ht, hp, hsub, husub, hc]

/-- Witness for C10 at a concrete environment with transient claim
`"xyz"`. -/
theorem claim_C10_witness :
    (ValidateToken envC10 ⟨"tid", some "id1", some "xyz"⟩ =
      ValidateToken envC10 ⟨"tid", some "id1", none⟩) ∧
    (ValidateToken envC10 ⟨"tid", some "id1", some "xyz"⟩).2 = ["id1"] :=
  claim_C10_unparsable_transient envC10 ⟨"tid", some "id1", some "xyz"⟩
    ⟨"tid", "id1", 0, "ACCESS", 99⟩ "xyz" "id1" rfl rfl rfl rfl rfl rfl rfl

/-- Claim C4: when a token record is found for the parsed jti, belongs
to the caller, is valid (status 0), and the parsed permissions embed
the requested resource, Audit returns `(nil, nil)` and mints nothing. -/
theorem claim_C4_valid_embedding :
    ∀ (env : TokenServiceEnv) (identity : Identity) (tokenString resourceID : String)
      (tokenClaims : TokenClaims) (t : Token) (ps : List Permissions),
      env.checkResourceExists resourceID = .ok () →
      env.ctxTokenManager = true →
      env.parseToken tokenString = some tokenClaims →
      env.isUUID tokenClaims.Id = true →
      env.loadToken tokenClaims.Id = .ok t →
      t.IdentityID = identity.ID →
      t.Status = 0 →
      tokenClaims.Permissions = some ps →
      ps.any (fun p => p.ResourceSetID == resourceID) = true →
      Audit env identity tokenString resourceID = .noNewToken none := by
  intro env identity ts rid claims t ps hres hctx hparse huuid hload hid hstatus hperm hany
  rw [audit_eq_auditLoaded env identity ts rid claims t hres hctx hparse huuid hload]
  simp [auditLoaded, hperm, hany, hid, Token.Valid, hstatus]

/-- Witness for C4 at a concrete environment. -/
theorem claim_C4_witness :
    Audit envC4 identBase "tok" "res" = .noNewToken none :=
  claim_C4_valid_embedding envC4 identBase "tok" "res" ⟨"tid", some [⟨"res", ["a"], 5⟩]⟩
    ⟨"tid", "id1", 0, "RPT", 99⟩ [⟨"res", ["a"], 5⟩] rfl rfl rfl rfl rfl rfl rfl rfl (by decide)

/-- Claim C5: in both Audit and ExchangeRefreshToken (with an RPT
supplied and an identity resolved), a loaded token record owned by a
different identity fails the operation with an Unauthorized error, and
no new token is minted (the generation step is never reached, hence
nothing is registered). -/
theorem claim_C5_ownership :
    (∀ (env : TokenServiceEnv) (identity : Identity) (tokenString resourceID : String)
       (tokenClaims : TokenClaims) (t : Token),
      env.checkResourceExists resourceID = .ok () →
      env.ctxTokenManager = true →
      env.parseToken tokenString = some tokenClaims →
      env.isUUID tokenClaims.Id = true →
      env.loadToken tokenClaims.Id = .ok t →
      ¬ t.IdentityID = identity.ID →
      Audit env identity tokenString resourceID =
        .err (.unauthorized "invalid token for identity") ∧
      ∀ perms privs, ¬ Audit env identity tokenString resourceID = .minted perms privs) ∧
    (∀ (env : TokenServiceEnv) (refreshToken rptToken : String) (tkn : MapClaims)
       (sub : String) (i : Identity) (tokenClaims : TokenClaims) (t : Token),
      env.parse refreshToken = some tkn →
      (ValidateToken env tkn).1 = .ok () →
      tkn.sub = some sub →
      env.isUUID sub = true →
      env.loadIdentity sub = .ok i →
      i.User.Banned = false →
      ¬ rptToken = "" →
      env.parseToken rptToken = some tokenClaims →
      env.isUUID tokenClaims.Id = true →
      env.loadToken tokenClaims.Id = .ok t →
      ¬ t.IdentityID = i.ID →
      ExchangeRefreshToken env refreshToken rptToken =
        .err (.unauthorized "invalid token for identity") ∧
      ∀ oi perms privs,
        ¬ ExchangeRefreshToken env refreshToken rptToken = .generated oi perms privs) := by
  constructor
  · intro env identity ts rid claims t hres hctx hparse huuid hload hne
    have hne' : (t.IdentityID != identity.ID) = true := by simpa using hne
    have heq : Audit env identity ts rid = .err (.unauthorized "invalid token for identity") := by
      rw [audit_eq_auditLoaded env identity ts rid claims t hres hctx hparse huuid hload]
      simp [auditLoaded, hne']
    exact ⟨heq, fun perms privs hc => by rw [heq] at hc; exact AuditOutcome.noConfusion hc⟩
  · intro env rt rpt tkn sub i claims t hparse hval hsub husub hid hban hrpt hparse2 huuid2 hload2 hne
    have hne' : (t.IdentityID != i.ID) = true := by simpa using hne
    have heq : ExchangeRefreshToken env rt rpt =
        .err (.unauthorized "invalid token for identity") := by
      rw [exchange_eq_phase env rt rpt tkn sub i hparse hval hsub husub hid hban hrpt]
      simp [exchangeRPTPhase, hparse2, huuid2, hload2, Except.toOption, hne']
    exact ⟨heq, fun oi perms privs hc => by rw [heq] at hc; exact ExchangeOutcome.noConfusion hc⟩

/-- Witness for C5: a token owned by `id2` audited/exchanged by `id1`
fails with the plain ownership Unauthorized error in both operations. -/
theorem claim_C5_witness :
    (Audit envC5a identBase "tok" "res" = .err (.unauthorized "invalid token for identity")) ∧
    (ExchangeRefreshToken envC5x "rt" "rpt" =
      .err (.unauthorized "invalid token for identity")) :=
  ⟨(claim_C5_ownership.1 envC5a identBase "tok" "res" ⟨"tid", some [⟨"res", ["a"], 5⟩]⟩
      ⟨"tid", "id2", 0, "RPT", 99⟩ rfl rfl rfl rfl rfl (by decide)).1,
   (claim_C5_ownership.2 envC5x "rt" "rpt" refreshClaims "id1" identBase ⟨"tid", none⟩
      ⟨"tid", "id2", 0, "RPT", 99⟩ rfl rfl rfl rfl rfl rfl (by decide) rfl rfl rfl
      (by decide)).1⟩

/-- Claim C6: in both Audit and ExchangeRefreshToken, a caller-owned
loaded record with the DEPROVISIONED flag set always fails Unauthorized
with the deprovisioned code; one with REVOKED or LOGGED_OUT set (and
not DEPROVISIONED) fails Unauthorized with the single revoked code,
and the two codes are distinct. -/
theorem claim_C6_status_codes :
    (∀ (env : TokenServiceEnv) (identity : Identity) (tokenString resourceID : String)
       (tokenClaims : TokenClaims) (t : Token),
      env.checkResourceExists resourceID = .ok () →
      env.ctxTokenManager = true →
      env.parseToken tokenString = some tokenClaims →
      env.isUUID tokenClaims.Id = true →
      env.loadToken tokenClaims.Id = .ok t →
      t.IdentityID = identity.ID →
      t.HasStatus TOKEN_STATUS_DEPROVISIONED = true →
      Audit env identity tokenString resourceID =
        .err (.unauthorizedWithCode "token banned" .tokenDeprovisioned)) ∧
    (∀ (env : TokenServiceEnv) (identity : Identity) (tokenString resourceID : String)
       (tokenClaims : TokenClaims) (t : Token),
      env.checkResourceExists resourceID = .ok () →
      env.ctxTokenManager = true →
      env.parseToken tokenString = some tokenClaims →
      env.isUUID tokenClaims.Id = true →
      env.loadToken tokenClaims.Id = .ok t →
      t.IdentityID = identity.ID →
      t.HasStatus TOKEN_STATUS_DEPROVISIONED = false →
      (t.HasStatus TOKEN_STATUS_REVOKED = true ∨ t.HasStatus TOKEN_STATUS_LOGGED_OUT = true) →
      Audit env identity tokenString resourceID =
        .err (.unauthorizedWithCode "token revoked or logged out" .tokenRevoked)) ∧
    (∀ (env : TokenServiceEnv) (refreshToken rptToken : String) (tkn : MapClaims)
       (sub : String) (i : Identity) (tokenClaims : TokenClaims) (t : Token),
      env.parse refreshToken = some tkn →
      (ValidateToken env tkn).1 = .ok () →
      tkn.sub = some sub →
      env.isUUID sub = true →
      env.loadIdentity sub = .ok i →
      i.User.Banned = false →
      ¬ rptToken = "" →
      env.parseToken rptToken = some tokenClaims →
      env.isUUID tokenClaims.Id = true →
      env.loadToken tokenClaims.Id = .ok t →
      t.IdentityID = i.ID →
      t.HasStatus TOKEN_STATUS_DEPROVISIONED = true →
      ExchangeRefreshToken env refreshToken rptToken =
        .err (.unauthorizedWithCode "token banned" .tokenDeprovisioned)) ∧
    (∀ (env : TokenServiceEnv) (refreshToken rptToken : String) (tkn : MapClaims)
       (sub : String) (i : Identity) (tokenClaims : TokenClaims) (t : Token),
      env.parse refreshToken = some tkn →
      (ValidateToken env tkn).1 = .ok () →
      tkn.sub = some sub →
      env.isUUID sub = true →
      env.loadIdentity sub = .ok i →
      i.User.Banned = false →
      ¬ rptToken = "" →
      env.parseToken rptToken = some tokenClaims →
      env.isUUID tokenClaims.Id = true →
      env.loadToken tokenClaims.Id = .ok t →
      t.IdentityID = i.ID →
      t.HasStatus TOKEN_STATUS_DEPROVISIONED = false →
      (t.HasStatus TOKEN_STATUS_REVOKED = true ∨ t.HasStatus TOKEN_STATUS_LOGGED_OUT = true) →
      ExchangeRefreshToken env refreshToken rptToken =
        .err (.unauthorizedWithCode "token revoked or logged out" .tokenRevoked)) ∧
    UnauthorizedCode.tokenDeprovisioned ≠ UnauthorizedCode.tokenRevoked := by
  refine ⟨?_, ?_, ?_, ?_, by decide⟩
  · intro env identity ts rid claims t hres hctx hparse huuid hload hid hdepr
    have hv := Token.not_valid_of_hasStatus t _ hdepr
    rw [audit_eq_auditLoaded env identity ts rid claims t hres hctx hparse huuid hload]
    simp [auditLoaded, hid, hv, hdepr]
  · intro env identity ts rid claims t hres hctx hparse huuid hload hid hdepr hrev
    rw [audit_eq_auditLoaded env identity ts rid claims t hres hctx hparse huuid hload]
    rcases hrev with h | h <;>
      simp [auditLoaded, hid, Token.not_valid_of_hasStatus t _ h, hdepr, h]
  · intro env rt rpt tkn sub i claims t hparse hval hsub husub hid hban hrpt hparse2 huuid2
      hload2 heq hdepr
    rw [exchange_eq_phase env rt rpt tkn sub i hparse hval hsub husub hid hban hrpt]
    simp [exchangeRPTPhase, hparse2, huuid2, hload2, Except.toOption, heq, hdepr]
  · intro env rt rpt tkn sub i claims t hparse hval hsub husub hid hban hrpt hparse2 huuid2
      hload2 heq hdepr hrev
    rw [exchange_eq_phase env rt rpt tkn sub i hparse hval hsub husub hid hban hrpt]
    rcases hrev with h | h <;>
      simp [exchangeRPTPhase, hparse2, huuid2, hload2, Except.toOption, heq, hdepr, h]

/-- Witness for C6: all four error-code branches hit at concrete
environments (deprovisioned and revoked records, via Audit and via
the refresh exchange). -/
theorem claim_C6_witness :
    (Audit envC6a identBase "tok" "res" =
      .err (.unauthorizedWithCode "token banned" .tokenDeprovisioned)) ∧
    (Audit envC6b identBase "tok" "res" =
      .err (.unauthorizedWithCode "token revoked or logged out" .tokenRevoked)) ∧
    (ExchangeRefreshToken envC6x "rt" "rpt" =
      .err (.unauthorizedWithCode "token banned" .tokenDeprovisioned)) ∧
    (ExchangeRefreshToken envC6y "rt" "rpt" =
      .err (.unauthorizedWithCode "token revoked or logged out" .tokenRevoked)) :=
  ⟨claim_C6_status_codes.1 envC6a identBase "tok" "res" ⟨"tid", some [⟨"res", ["a"], 5⟩]⟩
      ⟨"tid", "id1", 1, "RPT", 99⟩ rfl rfl rfl rfl rfl rfl (by decide),
   claim_C6_status_codes.2.1 envC6b identBase "tok" "res" ⟨"tid", some [⟨"res", ["a"], 5⟩]⟩
      ⟨"tid", "id1", 2, "RPT", 99⟩ rfl rfl rfl rfl rfl rfl (by decide) (Or.inl (by decide)),
   claim_C6_status_codes.2.2.1 envC6x "rt" "rpt" refreshClaims "id1" identBase ⟨"tid", none⟩
      ⟨"tid", "id1", 1, "RPT", 99⟩ rfl rfl rfl rfl rfl rfl (by decide) rfl rfl rfl rfl
      (by decide),
   claim_C6_status_codes.2.2.2.1 envC6y "rt" "rpt" refreshClaims "id1" identBase ⟨"tid", none⟩
      ⟨"tid", "id1", 4, "RPT", 99⟩ rfl rfl rfl rfl rfl rfl (by decide) rfl rfl rfl rfl
      (by decide) (Or.inr (by decide))⟩

/-- Claim C7: a refresh exchange whose resolved identity is banned
always fails with a plain Unauthorized error, and the token manager's
generation step is never reached (no token pair generated or
registered). -/
theorem claim_C7_banned_identity :
    ∀ (env : TokenServiceEnv) (refreshToken rptToken : String) (tkn : MapClaims)
      (sub : String) (i : Identity),
      env.parse refreshToken = some tkn →
      (ValidateToken env tkn).1 = .ok () →
      tkn.sub = some sub →
      env.isUUID sub = true →
      env.loadIdentity sub = .ok i →
      i.User.Banned = true →
      ExchangeRefreshToken env refreshToken rptToken =
        .err (.unauthorized "unauthorized access") ∧
      ∀ oi perms privs,
        ¬ ExchangeRefreshToken env refreshToken rptToken = .generated oi perms privs := by
  intro env rt rpt tkn sub i hparse hval hsub husub hid hban
  have heq : ExchangeRefreshToken env rt rpt = .err (.unauthorized "unauthorized access") := by
    simp [ExchangeRefreshToken, hparse, hval, hsub, husub, hid, hban]
  exact ⟨heq, fun oi perms privs hc => by rw [heq] at hc; exact ExchangeOutcome.noConfusion hc⟩

/-- Witness for C7 at a concrete environment with a banned identity. -/
theorem claim_C7_witness :
    ExchangeRefreshToken envC7 "rt" "rpt" = .err (.unauthorized "unauthorized access") :=
  (claim_C7_banned_identity envC7 "rt" "rpt" refreshClaims "id1" identBanned
    rfl rfl rfl rfl rfl rfl).1

/-- Claim C1 (counterexample): with the maximum permission count
configured as `0`, Audit still mints a token whose permission list has
one entry — the requested resource is seeded before the cap is checked
— so the minted list exceeds the configured maximum. -/
theorem claim_C1_counterexample :
    Audit envC1 identBase "tok" "res" = .minted [⟨"res", ["sc"], 100⟩] ["pcres"] ∧
    envC1.maxPermissions = 0 :=
  ⟨by decide, rfl⟩

/-- Claim C1 (amended): every permission list passed to the token
manager's generation step by Audit has at most
`max 1 GetRPTTokenMaxPermissions()` entries (so at most the configured
maximum whenever that maximum is at least 1), and every such list
passed by ExchangeRefreshToken has at most `max 0 maximum` entries. -/
theorem claim_C1_minted_bound :
    (∀ (env : TokenServiceEnv) (identity : Identity) (tokenString resourceID : String)
       (perms : List Permissions) (privs : List UUID),
      Audit env identity tokenString resourceID = .minted perms privs →
      perms.length ≤ max 1 env.maxPermissions.toNat) ∧
    (∀ (env : TokenServiceEnv) (refreshToken rptToken : String)
       (oi : Option Identity) (perms : List Permissions) (privs : List UUID),
      ExchangeRefreshToken env refreshToken rptToken = .generated oi perms privs →
      perms.length ≤ env.maxPermissions.toNat) := by
  constructor
  · intro env identity ts rid perms privs h
    obtain ⟨loadedToken, hm⟩ := audit_minted env identity ts rid perms privs h
    exact mint_minted_length env identity rid loadedToken perms privs hm
  · intro env rt rpt oi perms privs h
    exact exchange_generated_length env rt rpt oi perms privs h

/-- Witness for the amended C1 at concrete mint and exchange
outcomes. -/
theorem claim_C1_witness :
    ([(⟨"res", ["sc"], 100⟩ : Permissions)].length ≤ max 1 envC1.maxPermissions.toNat) ∧
    (([] : List Permissions).length ≤ envC1x.maxPermissions.toNat) :=
  ⟨claim_C1_minted_bound.1 envC1 identBase "tok" "res" [⟨"res", ["sc"], 100⟩] ["pcres"]
      (by decide),
   claim_C1_minted_bound.2 envC1x "rt" "" (some identBase) [] [] (by decide)⟩

/-- Claim C3: against a caller-owned token whose status is exactly
STALE and which embeds the requested resource, Audit resets the status
to VALID, persists the record and returns `(nil, nil)` when the
persisted privilege count matches the embedded permission count, every
embedded permission's scopes match the live cached scopes, and every
embedded resource is among the persisted privileges; a count difference
or a live scope-set difference makes Audit fall through and mint. -/
theorem claim_C3_stale_reset :
    (∀ (env : TokenServiceEnv) (identity : Identity) (tokenString resourceID : String)
       (tokenClaims : TokenClaims) (t : Token) (privileges : List PrivilegeCache)
       (claimPerms : List Permissions),
      env.checkResourceExists resourceID = .ok () →
      env.ctxTokenManager = true →
      env.parseToken tokenString = some tokenClaims →
      env.isUUID tokenClaims.Id = true →
      env.loadToken tokenClaims.Id = .ok t →
      t.IdentityID = identity.ID →
      t.Status = TOKEN_STATUS_STALE →
      tokenClaims.Permissions = some claimPerms →
      claimPerms.any (fun p => p.ResourceSetID == resourceID) = true →
      env.listPrivileges tokenClaims.Id = some privileges →
      privileges.length = claimPerms.length →
      (∀ p ∈ claimPerms, ∃ pc, env.cachedPrivileges identity.ID p.ResourceSetID = some pc ∧
        scopesEquivalent p.Scopes pc.Scopes = true) →
      (∀ p ∈ claimPerms,
        privileges.any (fun priv => priv.ResourceID == p.ResourceSetID) = true) →
      env.saveToken { t with Status := 0 } = true →
      Audit env identity tokenString resourceID = .noNewToken (some { t with Status := 0 })) ∧
    (∀ (env : TokenServiceEnv) (identity : Identity) (tokenString resourceID : String)
       (tokenClaims : TokenClaims) (t : Token) (privileges : List PrivilegeCache)
       (claimPerms : List Permissions) (pc : PrivilegeCache) (olds : List PrivilegeCache),
      env.checkResourceExists resourceID = .ok () →
      env.ctxTokenManager = true →
      env.parseToken tokenString = some tokenClaims →
      env.isUUID tokenClaims.Id = true →
      env.loadToken tokenClaims.Id = .ok t →
      t.IdentityID = identity.ID →
      t.Status = TOKEN_STATUS_STALE →
      tokenClaims.Permissions = some claimPerms →
      claimPerms.any (fun p => p.ResourceSetID == resourceID) = true →
      env.listPrivileges tokenClaims.Id = some privileges →
      (¬ privileges.length = claimPerms.length ∨
        checkPermsChanged env identity.ID privileges claimPerms = .ok (true, false)) →
      env.cachedPrivileges identity.ID resourceID = some pc →
      env.listPrivileges t.TokenID = some olds →
      (∀ x ∈ olds, x.Stale = true →
        (env.cachedPrivileges identity.ID x.ResourceID).isSome) →
      ∃ perms privIDs, Audit env identity tokenString resourceID = .minted perms privIDs) := by
  constructor
  · intro env identity ts rid claims t privileges claimPerms hres hctx hparse huuid hload hid
      hstatus hperm hany hpriv hlen hscopes hfound hsave
    rw [audit_eq_auditLoaded env identity ts rid claims t hres hctx hparse huuid hload]
    have hchk := checkPermsChanged_ok env identity.ID privileges claimPerms hscopes hfound
    simp only [hid] at hsave
    simp [auditLoaded, hperm, hany, hid, Token.Valid, Token.HasStatus, hstatus,
      TOKEN_STATUS_STALE, TOKEN_STATUS_DEPROVISIONED, TOKEN_STATUS_REVOKED,
      TOKEN_STATUS_LOGGED_OUT, hpriv, hlen, hchk, hsave,
      show (8 : Nat) &&& 1 = 0 from rfl, show (8 : Nat) &&& 2 = 0 from rfl,
      show (8 : Nat) &&& 4 = 0 from rfl, show (8 : Nat) &&& 8 = 8 from rfl]
  · intro env identity ts rid claims t privileges claimPerms pc olds hres hctx hparse huuid
      hload hid hstatus hperm hany hpriv hdiff hpc holds hstale
    rw [audit_eq_auditLoaded env identity ts rid claims t hres hctx hparse huuid hload]
    obtain ⟨⟨p2, q2⟩, hm⟩ :=
      migrate_ok_of_cache env identity.ID rid (sortPrivs olds)
        [⟨rid, pc.Scopes, pc.ExpiryTime⟩] [pc.PrivilegeCacheID]
        (fun x hx hs => hstale x ((sortPrivs_perm olds).subset hx) hs)
    have hmint : mint env identity rid (some t) = .minted p2 q2 := by
      simp [mint, hpc, holds, hm]
    refine ⟨p2, q2, ?_⟩
    rcases hdiff with hne | hchk
    · simp [auditLoaded, hperm, hany, hid, Token.Valid, Token.HasStatus, hstatus,
        TOKEN_STATUS_STALE, TOKEN_STATUS_DEPROVISIONED, TOKEN_STATUS_REVOKED,
        TOKEN_STATUS_LOGGED_OUT, hpriv, hne, hmint,
        show (8 : Nat) &&& 1 = 0 from rfl, show (8 : Nat) &&& 2 = 0 from rfl,
        show (8 : Nat) &&& 4 = 0 from rfl, show (8 : Nat) &&& 8 = 8 from rfl]
    · by_cases hl : privileges.length = claimPerms.length
      · simp [auditLoaded, hperm, hany, hid, Token.Valid, Token.HasStatus, hstatus,
          TOKEN_STATUS_STALE, TOKEN_STATUS_DEPROVISIONED, TOKEN_STATUS_REVOKED,
          TOKEN_STATUS_LOGGED_OUT, hpriv, hl, hchk, hmint,
          show (8 : Nat) &&& 1 = 0 from rfl, show (8 : Nat) &&& 2 = 0 from rfl,
          show (8 : Nat) &&& 4 = 0 from rfl, show (8 : Nat) &&& 8 = 8 from rfl]
      · simp [auditLoaded, hperm, hany, hid, Token.Valid, Token.HasStatus, hstatus,
          TOKEN_STATUS_STALE, TOKEN_STATUS_DEPROVISIONED, TOKEN_STATUS_REVOKED,
          TOKEN_STATUS_LOGGED_OUT, hpriv, hl, hmint,
          show (8 : Nat) &&& 1 = 0 from rfl, show (8 : Nat) &&& 2 = 0 from rfl,
          show (8 : Nat) &&& 4 = 0 from rfl, show (8 : Nat) &&& 8 = 8 from rfl]

/-- Witness for C3: a matching stale token is reset to VALID and
persisted; the same token with a changed live scope set falls through
to minting. -/
theorem claim_C3_witness :
    (Audit envC3a identBase "tok" "res" =
      .noNewToken (some ⟨"tid", "id1", 0, "RPT", 99⟩)) ∧
    (∃ perms privIDs, Audit envC3b identBase "tok" "res" = .minted perms privIDs) :=
  ⟨claim_C3_stale_reset.1 envC3a identBase "tok" "res" ⟨"tid", some [⟨"res", ["a"], 5⟩]⟩
      ⟨"tid", "id1", 8, "RPT", 99⟩ [⟨"pc1", "res", ["a"], 5, false⟩] [⟨"res", ["a"], 5⟩]
      rfl rfl rfl rfl rfl rfl rfl rfl (by decide) rfl rfl
      (by
        intro p hp
        simp only [List.mem_singleton] at hp
        subst hp
        exact ⟨⟨"pcn", "res", ["a"], 7, false⟩, rfl, by decide⟩)
      (by decide) rfl,
   claim_C3_stale_reset.2 envC3b identBase "tok" "res" ⟨"tid", some [⟨"res", ["a"], 5⟩]⟩
      ⟨"tid", "id1", 8, "RPT", 99⟩ [⟨"pc1", "res", ["a"], 5, false⟩] [⟨"res", ["a"], 5⟩]
      ⟨"pcn", "res", ["b"], 7, false⟩ [⟨"pc1", "res", ["a"], 5, false⟩]
      rfl rfl rfl rfl rfl rfl rfl rfl (by decide) rfl (Or.inr rfl) rfl rfl
      (by decide)⟩

/-- Claim C2: whenever Audit reaches the mint path with a prior token
record present, the permission list passed to the generation step
starts with the requested resource's live scopes and expiry from the
privilege cache, its remaining entries are drawn in order from the
prior token's persisted privileges sorted by expiry descending (a
permutation of them sorted latest-first), the requested resource never
appears among those migrated entries, and the list stops at the
configured maximum: its length is
`max 1 (min maximum (1 + number of non-requested historical entries))`;
in particular, with 12 historical privileges of expiries 1..12, maximum
5 and the requested resource not among them, the minted list is exactly
the requested resource followed by the 4 latest-expiring entries. -/
theorem claim_C2_mint_migration :
    (∀ (env : TokenServiceEnv) (identity : Identity) (tokenString resourceID : String)
       (tokenClaims : TokenClaims) (t : Token) (olds : List PrivilegeCache)
       (pcReq : PrivilegeCache) (perms : List Permissions) (privIDs : List UUID),
      env.parseToken tokenString = some tokenClaims →
      env.loadToken tokenClaims.Id = .ok t →
      env.listPrivileges t.TokenID = some olds →
      env.cachedPrivileges identity.ID resourceID = some pcReq →
      Audit env identity tokenString resourceID = .minted perms privIDs →
      (∃ tail, perms = ⟨resourceID, pcReq.Scopes, pcReq.ExpiryTime⟩ :: tail ∧
        List.Sublist (tail.map Permissions.ResourceSetID)
          ((sortPrivs olds).map PrivilegeCache.ResourceID) ∧
        ∀ x ∈ tail, ¬ x.ResourceSetID = resourceID) ∧
      List.Pairwise (fun a b => b.ExpiryTime ≤ a.ExpiryTime) (sortPrivs olds) ∧
      List.Perm (sortPrivs olds) olds ∧
      perms.length = max 1 (min env.maxPermissions.toNat
        (1 + (olds.filter (fun x => !(x.ResourceID == resourceID))).length))) ∧
    Audit envC2 identBase "tok" "res" =
      .minted [⟨"res", ["sc"], 100⟩, ⟨"r12", ["s"], 12⟩, ⟨"r11", ["s"], 11⟩,
               ⟨"r10", ["s"], 10⟩, ⟨"r9", ["s"], 9⟩]
        ["pcres", "pc12", "pc11", "pc10", "pc9"] := by
  constructor
  · intro env identity ts rid claims t olds pcReq perms privIDs hparse hload holds hpc h
    have hmint := audit_minted_of_load env identity ts rid claims t perms privIDs hparse hload h
    have hmig := mint_some_migrate env identity rid t pcReq olds perms privIDs hpc holds hmint
    obtain ⟨tail, ptail, h1, h2, h3, h4⟩ :=
      migrate_ok_structure env identity.ID rid _ _ _ _ _ hmig
    have hlen := migrate_ok_length env identity.ID rid _ _ _ _ _ hmig
    have hcnt : ((sortPrivs olds).filter (fun x => !(x.ResourceID == rid))).length =
        (olds.filter (fun x => !(x.ResourceID == rid))).length :=
      ((sortPrivs_perm olds).filter _).length_eq
    refine ⟨⟨tail, by simpa using h1, h3, h4⟩,
      sortPrivs_pairwise olds, sortPrivs_perm olds, ?_⟩
    rw [hcnt] at hlen
    simp only [List.length_cons, List.length_nil, Nat.cast_succ, Nat.cast_zero] at hlen
    split at hlen <;> omega
  · decide

/-- Witness for C2's general part, instantiated at the scenario
environment. -/
theorem claim_C2_witness :
    (∃ tail, ([⟨"res", ["sc"], 100⟩, ⟨"r12", ["s"], 12⟩, ⟨"r11", ["s"], 11⟩,
               ⟨"r10", ["s"], 10⟩, ⟨"r9", ["s"], 9⟩] : List Permissions) =
        ⟨"res", pcRes.Scopes, pcRes.ExpiryTime⟩ :: tail ∧
      List.Sublist (tail.map Permissions.ResourceSetID)
        ((sortPrivs ((List.range 12).map (fun k => privC2 (k + 1)))).map
          PrivilegeCache.ResourceID) ∧
      ∀ x ∈ tail, ¬ x.ResourceSetID = "res") ∧
    List.Pairwise (fun a b => b.ExpiryTime ≤ a.ExpiryTime)
      (sortPrivs ((List.range 12).map (fun k => privC2 (k + 1)))) ∧
    List.Perm (sortPrivs ((List.range 12).map (fun k => privC2 (k + 1))))
      ((List.range 12).map (fun k => privC2 (k + 1))) ∧
    ([⟨"res", ["sc"], 100⟩, ⟨"r12", ["s"], 12⟩, ⟨"r11", ["s"], 11⟩,
      ⟨"r10", ["s"], 10⟩, ⟨"r9", ["s"], 9⟩] : List Permissions).length =
      max 1 (min envC2.maxPermissions.toNat
        (1 + (((List.range 12).map (fun k => privC2 (k + 1))).filter
          (fun x => !(x.ResourceID == "res"))).length)) :=
  claim_C2_mint_migration.1 envC2 identBase "tok" "res"
    ⟨"tid", some [⟨"other", ["s"], 0⟩]⟩ ⟨"tid", "id1", 0, "RPT", 99⟩
    ((List.range 12).map (fun k => privC2 (k + 1))) pcRes
    [⟨"res", ["sc"], 100⟩, ⟨"r12", ["s"], 12⟩, ⟨"r11", ["s"], 11⟩,
     ⟨"r10", ["s"], 10⟩, ⟨"r9", ["s"], 9⟩]
    ["pcres", "pc12", "pc11", "pc10", "pc9"]
    rfl rfl rfl rfl (by decide)
